import Mathlib

/-!
Verification of the file-set resolution and parse-orchestration layer of the
tree-sitter CLI (`src/cli/src/main.rs`).

The filesystem, glob expansion, and per-file parse engine are external
collaborators; they are modelled abstractly (as an `FS` structure and lists of
per-file outcomes).  The functions `collect_paths`, `incorporate_path`, the
stats fold and the `has_error` aggregation are translated from the source.
-/

set_option autoImplicit false

namespace TreeSitterCli

/-- Abstract model of the external filesystem and glob library.
`pathExists p` models `Path::new(p).exists()`;
`glob p` models glob expansion, `none` standing for an invalid-pattern error,
`some ms` for the (UTF-8) matched paths in order;
`readFile f` models `fs::read_to_string(f)`, `none` standing for a read error. -/
structure FS where
  pathExists : String → Bool
  glob : String → Option (List String)
  readFile : String → Option String

/-- Model of Rust `str::trim`: drop leading and trailing whitespace. -/
def rustTrim (s : String) : String :=
  ⟨((s.data.dropWhile Char.isWhitespace).reverse.dropWhile Char.isWhitespace).reverse⟩

/-- Split a character list at every newline; always returns at least one
(possibly empty) segment. -/
def splitLinesAux : List Char → List (List Char)
  | [] => [[]]
  | c :: rest =>
    match splitLinesAux rest with
    | line :: lines =>
      if c == '\n' then [] :: line :: lines else (c :: line) :: lines
    | [] => []

/-- Drop a trailing carriage return from one line, as Rust `str::lines` does. -/
def stripCR (l : List Char) : List Char :=
  match l.getLast? with
  | some c => if c == '\r' then l.dropLast else l
  | none => l

/-- Model of Rust `str::lines` (as applied in `collect_paths`): split on
newlines, drop a trailing carriage return from each line, and produce no
final empty line for a trailing newline (in particular the empty string has
no lines). -/
def rustLines (s : String) : List String :=
  let parts := splitLinesAux s.data
  let parts := if parts.getLast? = some [] then parts.dropLast else parts
  parts.map fun l => ⟨stripCR l⟩

/-- Model of `path.starts_with('!')`. -/
def startsWithBang (s : String) : Bool :=
  match s.data with
  | [] => false
  | c :: _ => c == '!'

/-- Model of `path.trim_start_matches('!')`: drop every leading `!`. -/
def trimStartBangs (s : String) : String :=
  ⟨s.data.dropWhile (· == '!')⟩

/-- Model of `Iterator::position(|p| p == path)` over the result vector. -/
def positionOf (path : String) : List String → Option Nat
  | [] => none
  | q :: rest => if q == path then some 0 else (positionOf path rest).map (· + 1)

/-- Translation of the `incorporate_path` closure in `collect_paths`
(main.rs:826-832): a positive specifier pushes the path onto the result,
a negative one removes the first occurrence if present. -/
def incorporate_path (result : List String) (path : String) (positive : Bool) :
    List String :=
  if positive then
    result ++ [path]
  else
    match positionOf path result with
    | some index => result.eraseIdx index
    | none => result

/-- One iteration of the specifier loop of `collect_paths` (main.rs:834-851):
strip a leading run of `!` to obtain polarity and pattern, treat the pattern as
a literal if it names an existing entry, otherwise glob-expand it (an invalid
pattern is a fatal error naming it) and incorporate every match. -/
def processSpecifier (fs : FS) (result : List String) (spec : String) :
    Except String (List String) :=
  let pp : Bool × String :=
    if startsWithBang spec then (false, trimStartBangs spec)
    else (true, spec)
  let positive := pp.1
  let path := pp.2
  if fs.pathExists path then
    Except.ok (incorporate_path result path positive)
  else
    match fs.glob path with
    | none => Except.error ("Invalid glob pattern \"" ++ path ++ "\"")
    | some ms => Except.ok (ms.foldl (fun r m => incorporate_path r m positive) result)

/-- Translation of `collect_paths` (main.rs:810-862).  Path-list-file mode
returns the trimmed file contents split into lines; specifier mode folds
`processSpecifier` over the specifiers and fails when the result is empty;
with neither input it fails with a fixed message. -/
def collect_paths (fs : FS) (paths_file : Option String)
    (paths : Option (List String)) : Except String (List String) :=
  match paths_file with
  | some pf =>
    match fs.readFile pf with
    | none => Except.error ("Failed to read paths file " ++ pf)
    | some content => Except.ok (rustLines (rustTrim content))
  | none =>
    match paths with
    | some ps =>
      match ps.foldlM (processSpecifier fs) [] with
      | Except.error e => Except.error e
      | Except.ok result =>
        if result.isEmpty then
          Except.error "No files were found at or matched by the provided pathname/glob"
        else
          Except.ok result
    | none => Except.error "Must provide one or more paths"

/-- The per-specifier expansion of the spec's §4.1: a pattern naming an
existing entry expands to itself, otherwise to its glob matches. -/
def expandSpecifier (fs : FS) (p : String) : Except String (List String) :=
  if fs.pathExists p then Except.ok [p]
  else
    match fs.glob p with
    | none => Except.error ("Invalid glob pattern \"" ++ p ++ "\"")
    | some ms => Except.ok ms

/-- Concatenation of all specifier expansions in input order. -/
def expandAll (fs : FS) : List String → Except String (List String)
  | [] => Except.ok []
  | p :: ps =>
    match expandSpecifier fs p with
    | Except.error e => Except.error e
    | Except.ok m =>
      match expandAll fs ps with
      | Except.error e => Except.error e
      | Except.ok rest => Except.ok (m ++ rest)

/-- A concrete filesystem in which exactly the file `a.txt` exists and every
glob matches nothing. -/
def fsA : FS where
  pathExists := fun p => p == "a.txt"
  glob := fun _ => some []
  readFile := fun _ => none

/-- A concrete filesystem in which exactly the files `a.txt` and `b.txt`
exist and every glob matches nothing. -/
def fsAB : FS where
  pathExists := fun p => p == "a.txt" || p == "b.txt"
  glob := fun _ => some []
  readFile := fun _ => none

/-- A concrete filesystem in which exactly a file named `!a` exists and every
glob matches nothing. -/
def fsBang : FS where
  pathExists := fun p => p == "!a"
  glob := fun _ => some []
  readFile := fun _ => none

/-- A concrete filesystem whose path-list file `list.txt` reads as
`"  a.txt\nb.txt\n!a.txt\na.txt\n"`. -/
def fsList : FS where
  pathExists := fun _ => false
  glob := fun _ => some []
  readFile := fun f => if f == "list.txt" then some "  a.txt\nb.txt\n!a.txt\na.txt\n" else none

/-- A concrete filesystem whose path-list file `empty.txt` reads as
whitespace only. -/
def fsEmptyList : FS where
  pathExists := fun _ => false
  glob := fun _ => some []
  readFile := fun f => if f == "empty.txt" then some "  \n\t \n" else none

/-- The aggregate statistics record `parse::Stats` folded in the parse
subcommand (main.rs:546, 573-582); durations are counted abstractly in
integral time units. -/
structure Stats where
  total_parses : Nat
  successful_parses : Nat
  total_bytes : Nat
  total_duration : Nat
deriving DecidableEq, Repr

/-- `Stats::default()`: all counters zero. -/
def Stats.default : Stats := ⟨0, 0, 0, 0⟩

/-- The per-file outcome returned by `parse::parse_file_at_path` when it does
not fail at the process level: whether the parse succeeded, the byte count,
and the measured duration when one was taken. -/
structure ParseResult where
  successful : Bool
  bytes : Nat
  duration : Option Nat
deriving DecidableEq, Repr

/-- Translation of the stats fold of the parse subcommand (main.rs:573-582):
`total_parses` always increments, `successful_parses` only on success,
`total_bytes` and `total_duration` only when a duration was measured. -/
def foldStats (stats : Stats) (parse_result : ParseResult) : Stats :=
  let stats := { stats with total_parses := stats.total_parses + 1 }
  let stats :=
    if parse_result.successful then
      { stats with successful_parses := stats.successful_parses + 1 }
    else stats
  match parse_result.duration with
  | some duration =>
    { stats with
        total_bytes := stats.total_bytes + parse_result.bytes,
        total_duration := stats.total_duration + duration }
  | none => stats

/-- Translation of the per-file loop of the parse subcommand
(main.rs:548-585).  Each list element is the outcome of one file's body
(`select_language` / `set_language` / `parse_file_at_path`): a process-level
error (propagated by `?`, aborting the loop) or a `ParseResult`.  Carries the
running `stats` and the `has_error` accumulator. -/
def parseLoop (track : Bool) :
    List (Except String ParseResult) → Stats → Bool → Except String (Stats × Bool)
  | [], stats, has_error => Except.ok (stats, has_error)
  | outcome :: rest, stats, has_error =>
    match outcome with
    | Except.error e => Except.error e
    | Except.ok parse_result =>
      let stats := if track then foldStats stats parse_result else stats
      parseLoop track rest stats (has_error || !parse_result.successful)

/-- Translation of the parse subcommand's aggregate verdict (main.rs:548-593):
run the per-file loop from default stats, then fail the whole invocation when
`has_error` was set. -/
def parseInvocation (track : Bool) (outcomes : List (Except String ParseResult)) :
    Except String Stats :=
  match parseLoop track outcomes Stats.default false with
  | Except.error e => Except.error e
  | Except.ok (stats, has_error) =>
    if has_error then Except.error "" else Except.ok stats

/-- Model of Rust `str::parse::<u64>()`: an optional leading `+` sign followed
by at least one ASCII digit, with the value required to fit in 64 bits;
`none` models a parse error. -/
def parseU64 (s : String) : Option Nat :=
  let ds := match s.data with
    | '+' :: rest => rest
    | l => l
  if ds ≠ [] ∧ ds.all Char.isDigit then
    let n := ds.foldl (fun a c => a * 10 + (c.toNat - 48)) 0
    if n < 2 ^ 64 then some n else none
  else none

/-- Translation of the timeout read of the parse subcommand (main.rs:534-536):
`matches.value_of("timeout").map_or(0, |t| t.parse::<u64>().unwrap())`.
A `none` result models the panic of `unwrap` on an unparsable string. -/
def readTimeout (t : Option String) : Option Nat :=
  match t with
  | none => some 0
  | some s => parseU64 s

/-! ### Helper lemmas -/

theorem foldl_incorporate_pos (ms : List String) (r : List String) :
    ms.foldl (fun r m => incorporate_path r m true) r = r ++ ms := by
  induction ms generalizing r with
  | nil => simp
  | cons m ms ih =>
    rw [List.foldl_cons, ih]
    simp [incorporate_path]

theorem processSpecifier_pos (fs : FS) (r : List String) (p : String)
    (h : startsWithBang p = false) :
    processSpecifier fs r p = (expandSpecifier fs p).map (fun ms => r ++ ms) := by
  unfold processSpecifier expandSpecifier
  simp only [h, Bool.false_eq_true, if_false]
  by_cases he : fs.pathExists p
  · simp [he, incorporate_path, Except.map]
  · simp only [he, Bool.false_eq_true, if_false]
    cases fs.glob p with
    | none => rfl
    | some ms => simp [Except.map, foldl_incorporate_pos]

theorem foldlM_processSpecifier (fs : FS) (ps : List String)
    (h : ∀ p ∈ ps, startsWithBang p = false) (acc : List String) :
    List.foldlM (processSpecifier fs) acc ps =
      (expandAll fs ps).map (fun L => acc ++ L) := by
  induction ps generalizing acc with
  | nil =>
    simp only [List.foldlM_nil, expandAll, Except.map, List.append_nil]
    rfl
  | cons p ps ih =>
    have ih' := ih fun q hq => h q (List.mem_cons_of_mem p hq)
    rw [List.foldlM_cons, processSpecifier_pos fs acc p (h p (List.mem_cons_self p ps))]
    cases hx : expandSpecifier fs p with
    | error e =>
      simp only [expandAll, hx, Except.map]
      rfl
    | ok m =>
      simp only [expandAll, hx, Except.map]
      change List.foldlM (processSpecifier fs) (acc ++ m) ps = _
      rw [ih' (acc ++ m)]
      cases hr : expandAll fs ps with
      | error e => simp [hr, Except.map]
      | ok rest => simp [hr, Except.map]

theorem expandAll_of_exists (fs : FS) (L : List String)
    (h : ∀ p ∈ L, fs.pathExists p = true) : expandAll fs L = Except.ok L := by
  induction L with
  | nil => rfl
  | cons p ps ih =>
    have hp : fs.pathExists p = true := h p (List.mem_cons_self p ps)
    rw [expandAll, expandSpecifier, if_pos hp,
      ih fun q hq => h q (List.mem_cons_of_mem p hq)]
    rfl

theorem incorporate_path_neg (r : List String) (p : String) :
    incorporate_path r p false = r.erase p := by
  induction r with
  | nil => rfl
  | cons a as ih =>
    have ih' : (match positionOf p as with
        | some i => as.eraseIdx i
        | none => as) = as.erase p := by
      simpa [incorporate_path] using ih
    cases ha : a == p with
    | true => simp [incorporate_path, positionOf, ha, List.erase_cons]
    | false =>
      simp only [incorporate_path, positionOf, ha, Bool.false_eq_true, if_false,
        List.erase_cons]
      cases hpos : positionOf p as with
      | none => simpa [hpos] using ih'
      | some i =>
        rw [hpos] at ih'
        simp only [Option.map, List.eraseIdx, List.cons.injEq, true_and]
        exact ih'

theorem foldl_total_parses (rs : List ParseResult) (s : Stats) :
    (List.foldl foldStats s rs).total_parses = s.total_parses + rs.length := by
  induction rs generalizing s with
  | nil => simp
  | cons r rs ih =>
    rw [List.foldl_cons, ih]
    have h1 : (foldStats s r).total_parses = s.total_parses + 1 := by
      obtain ⟨suc, bytes, dur⟩ := r
      cases suc <;> cases dur <;> simp [foldStats]
    rw [h1, List.length_cons]
    omega

theorem parseLoop_map_ok (track : Bool) (rs : List ParseResult) (s : Stats)
    (he : Bool) :
    parseLoop track (rs.map Except.ok) s he =
      Except.ok (rs.foldl (fun st r => if track then foldStats st r else st) s,
        he || rs.any fun r => !r.successful) := by
  induction rs generalizing s he with
  | nil => simp [parseLoop]
  | cons r rs ih => simp [parseLoop, ih, List.any_cons, Bool.or_assoc]

/-! ### Claim theorems -/

/-- C1 counterexample: for the no-negation input `["a.txt", "b.txt", "a.txt"]`
over a filesystem where both files exist, `collect_paths` returns
`["a.txt", "b.txt", "a.txt"]`: the result is not duplicate-free, and the
repeated specifier did not move `a.txt` to the end (which would give
`["b.txt", "a.txt"]`); it appended a second copy. -/
theorem collect_paths_dedup_counterexample :
    collect_paths fsAB none (some ["a.txt", "b.txt", "a.txt"]) =
      Except.ok ["a.txt", "b.txt", "a.txt"] ∧
    ¬ List.Nodup ["a.txt", "b.txt", "a.txt"] ∧
    ["a.txt", "b.txt", "a.txt"] ≠ ["b.txt", "a.txt"] :=
  ⟨rfl, by decide, by decide⟩

/-- C1 (amended): for every specifier list with no negated specifiers, the
resolved path set equals the plain concatenation of all literal/glob
expansions in input order (with the empty concatenation failing as
"no files matched"); duplicates from repeated specifiers are preserved. -/
theorem collect_paths_no_negation (fs : FS) (ps L : List String)
    (hpos : ∀ p ∈ ps, startsWithBang p = false)
    (hexp : expandAll fs ps = Except.ok L) :
    collect_paths fs none (some ps) =
      if L.isEmpty then
        Except.error "No files were found at or matched by the provided pathname/glob"
      else Except.ok L := by
  show (match List.foldlM (processSpecifier fs) [] ps with
    | Except.error e => Except.error e
    | Except.ok result =>
      if result.isEmpty then
        Except.error "No files were found at or matched by the provided pathname/glob"
      else Except.ok result) = _
  rw [foldlM_processSpecifier fs ps hpos [], hexp]
  simp [Except.map]

/-- Witness for C1: the specifier list `["a.txt", "a.txt"]` over `fsA` expands
to `["a.txt", "a.txt"]` and resolves to exactly that concatenation. -/
theorem collect_paths_no_negation_witness :
    (∀ p ∈ ["a.txt", "a.txt"], startsWithBang p = false) ∧
    expandAll fsA ["a.txt", "a.txt"] = Except.ok ["a.txt", "a.txt"] ∧
    collect_paths fsA none (some ["a.txt", "a.txt"]) =
      Except.ok ["a.txt", "a.txt"] :=
  ⟨by decide, rfl,
    collect_paths_no_negation fsA ["a.txt", "a.txt"] ["a.txt", "a.txt"]
      (by decide) rfl⟩

/-- C2: a negative specifier removes the first matching occurrence of its path
from the result built so far and is a no-op when the path is absent, a
positive specifier appends at the end, and the concrete input
`["a.txt", "!a.txt", "a.txt"]` over an existing `a.txt` resolves to
`["a.txt"]`. -/
theorem negation_removes_first :
    (∀ (r : List String) (p : String), incorporate_path r p false = r.erase p) ∧
    (∀ (r : List String) (p : String), p ∉ r → incorporate_path r p false = r) ∧
    (∀ (r : List String) (p : String), incorporate_path r p true = r ++ [p]) ∧
    collect_paths fsA none (some ["a.txt", "!a.txt", "a.txt"]) =
      Except.ok ["a.txt"] :=
  ⟨fun r p => incorporate_path_neg r p,
   fun r p h => by rw [incorporate_path_neg, List.erase_of_not_mem h],
   fun r p => rfl,
   rfl⟩

/-- Witness for C2: removing `"a.txt"` from `["b.txt"]`, where it does not
occur, leaves the list unchanged. -/
theorem negation_removes_first_witness :
    "a.txt" ∉ ["b.txt"] ∧ incorporate_path ["b.txt"] "a.txt" false = ["b.txt"] :=
  ⟨by decide, negation_removes_first.2.1 ["b.txt"] "a.txt" (by decide)⟩

/-- C3 counterexample: the set `["!a"]`, whose single entry names the existing
file `!a`, is a possible resolved set (a glob can match a file named `!a`),
yet feeding it back into `collect_paths` treats the entry as a negation of the
nonexistent path `a` and fails, rather than returning `["!a"]`. -/
theorem idempotence_counterexample :
    fsBang.pathExists "!a" = true ∧ (["!a"] : List String) ≠ [] ∧
    collect_paths fsBang none (some ["!a"]) =
      Except.error "No files were found at or matched by the provided pathname/glob" ∧
    collect_paths fsBang none (some ["!a"]) ≠ Except.ok ["!a"] :=
  ⟨rfl, by decide, rfl, fun h => Except.noConfusion h⟩

/-- C3 (amended): resolution is idempotent for every non-empty path set whose
entries all name existing filesystem entries and none of which begins with the
exclusion marker `!`: fed back as positive literal specifiers, the set is
returned unchanged. -/
theorem collect_paths_idempotent (fs : FS) (L : List String)
    (hne : L ≠ [])
    (hex : ∀ p ∈ L, fs.pathExists p = true)
    (hpos : ∀ p ∈ L, startsWithBang p = false) :
    collect_paths fs none (some L) = Except.ok L := by
  have hLe : L.isEmpty = false := by
    cases L with
    | nil => exact absurd rfl hne
    | cons a as => rfl
  show (match List.foldlM (processSpecifier fs) [] L with
    | Except.error e => Except.error e
    | Except.ok result =>
      if result.isEmpty then
        Except.error "No files were found at or matched by the provided pathname/glob"
      else Except.ok result) = _
  rw [foldlM_processSpecifier fs L hpos [], expandAll_of_exists fs L hex]
  simp [Except.map, hLe]

/-- Witness for C3: the set `["a.txt", "b.txt"]` of existing files resolves
back to itself. -/
theorem collect_paths_idempotent_witness :
    (["a.txt", "b.txt"] : List String) ≠ [] ∧
    (∀ p ∈ ["a.txt", "b.txt"], fsAB.pathExists p = true) ∧
    collect_paths fsAB none (some ["a.txt", "b.txt"]) =
      Except.ok ["a.txt", "b.txt"] :=
  ⟨by decide, by decide,
    collect_paths_idempotent fsAB ["a.txt", "b.txt"] (by decide) (by decide)
      (by decide)⟩

/-- In specifier mode a successful result of `collect_paths` is nonempty. -/
theorem collect_paths_ok_nonempty (fs : FS) (ps L : List String)
    (h : collect_paths fs none (some ps) = Except.ok L) : L ≠ [] := by
  have h' : (match List.foldlM (processSpecifier fs) [] ps with
    | Except.error e => Except.error e
    | Except.ok result =>
      if result.isEmpty then
        (Except.error "No files were found at or matched by the provided pathname/glob" :
          Except String (List String))
      else Except.ok result) = Except.ok L := h
  cases hfm : List.foldlM (processSpecifier fs) [] ps with
  | error e =>
    rw [hfm] at h'
    exact Except.noConfusion h'
  | ok result =>
    rw [hfm] at h'
    dsimp only at h'
    by_cases hres : result.isEmpty
    · rw [if_pos hres] at h'
      exact Except.noConfusion h'
    · rw [if_neg hres] at h'
      injection h' with h2
      subst h2
      intro hL
      subst hL
      exact hres rfl

/-- C4: in specifier mode (no path-list file, specifiers supplied), when
processing all specifiers leaves an empty result, `collect_paths` fails with
the "no files matched" error rather than returning it; consequently a
successful result is never the empty list. -/
theorem collect_paths_specifier_nonempty (fs : FS) (ps L : List String) :
    (List.foldlM (processSpecifier fs) [] ps = Except.ok [] →
      collect_paths fs none (some ps) =
        Except.error "No files were found at or matched by the provided pathname/glob") ∧
    (collect_paths fs none (some ps) = Except.ok L → L ≠ []) := by
  constructor
  · intro h
    show (match List.foldlM (processSpecifier fs) [] ps with
      | Except.error e => Except.error e
      | Except.ok result =>
        if result.isEmpty then
          Except.error "No files were found at or matched by the provided pathname/glob"
        else Except.ok result) = _
    rw [h]
    exact rfl
  · exact collect_paths_ok_nonempty fs ps L

/-- Witness for C4: the specifier `["b.txt"]` over `fsA` matches nothing, so
its processed result is empty and `collect_paths` fails with the
"no files matched" error; `["a.txt"]` resolves to the nonempty `["a.txt"]`. -/
theorem collect_paths_specifier_nonempty_witness :
    List.foldlM (processSpecifier fsA) [] ["b.txt"] = Except.ok [] ∧
    collect_paths fsA none (some ["b.txt"]) =
      Except.error "No files were found at or matched by the provided pathname/glob" ∧
    collect_paths fsA none (some ["a.txt"]) = Except.ok ["a.txt"] ∧
    (["a.txt"] : List String) ≠ [] :=
  ⟨rfl, (collect_paths_specifier_nonempty fsA ["b.txt"] []).1 rfl,
   rfl, (collect_paths_specifier_nonempty fsA ["a.txt"] ["a.txt"]).2 rfl⟩

/-- C5: with a path-list file that reads successfully, `collect_paths` returns
exactly the lines of the whitespace-trimmed contents, in file order, with no
glob expansion, negation handling or deduplication, regardless of any
specifiers also supplied. -/
theorem collect_paths_paths_file (fs : FS) (pf : String)
    (ps : Option (List String)) (content : String)
    (h : fs.readFile pf = some content) :
    collect_paths fs (some pf) ps = Except.ok (rustLines (rustTrim content)) := by
  show (match fs.readFile pf with
    | none => Except.error ("Failed to read paths file " ++ pf)
    | some c => Except.ok (rustLines (rustTrim c))) = _
  rw [h]

/-- Witness for C5: a path-list file containing a negated-looking line and a
duplicate line is returned verbatim, untouched by specifier semantics, even
though specifiers were also supplied. -/
theorem collect_paths_paths_file_witness :
    fsList.readFile "list.txt" = some "  a.txt\nb.txt\n!a.txt\na.txt\n" ∧
    collect_paths fsList (some "list.txt") (some ["x"]) =
      Except.ok ["a.txt", "b.txt", "!a.txt", "a.txt"] :=
  ⟨rfl,
    collect_paths_paths_file fsList "list.txt" (some ["x"])
      "  a.txt\nb.txt\n!a.txt\na.txt\n" rfl⟩

/-- C6: one step of the stats fold increments `total_parses` unconditionally,
increments `successful_parses` exactly on successful results, and adds to
`total_bytes` and `total_duration` exactly when a duration was measured
(leaving them unchanged otherwise); over a whole run, `total_parses` grows by
the number of files folded. -/
theorem foldStats_spec (s : Stats) (r : ParseResult) (rs : List ParseResult) :
    (foldStats s r).total_parses = s.total_parses + 1 ∧
    (foldStats s r).successful_parses =
      s.successful_parses + (if r.successful then 1 else 0) ∧
    (foldStats s r).total_bytes =
      (match r.duration with
        | some _ => s.total_bytes + r.bytes
        | none => s.total_bytes) ∧
    (foldStats s r).total_duration =
      (match r.duration with
        | some d => s.total_duration + d
        | none => s.total_duration) ∧
    (List.foldl foldStats s rs).total_parses = s.total_parses + rs.length := by
  obtain ⟨suc, bytes, dur⟩ := r
  refine ⟨?_, ?_, ?_, ?_, foldl_total_parses rs s⟩ <;>
    cases suc <;> cases dur <;> simp [foldStats]

/-- C7: over per-file bodies that all return a parse result, the loop attempts
every file (it never aborts early and folds the stats of every file), the
invocation fails exactly when some file's result was unsuccessful and succeeds
when all were successful; in the concrete three-file run with one unsuccessful
file the verdict is failure while `successful_parses = 2` and
`total_parses = 3`. -/
theorem parse_soft_faults_hard_verdict (rs : List ParseResult) (track : Bool)
    (s : Stats) (he : Bool) :
    parseLoop track (rs.map Except.ok) s he =
      Except.ok (rs.foldl (fun st r => if track then foldStats st r else st) s,
        he || rs.any fun r => !r.successful) ∧
    parseInvocation track (rs.map Except.ok) =
      (if rs.any (fun r => !r.successful) then Except.error ""
       else
        Except.ok (rs.foldl (fun st r => if track then foldStats st r else st)
          Stats.default)) ∧
    (List.foldl foldStats Stats.default rs).total_parses = rs.length ∧
    parseInvocation true (List.map Except.ok
      [⟨true, 10, some 1⟩, ⟨false, 5, some 2⟩, ⟨true, 7, some 3⟩]) =
      Except.error "" ∧
    (List.foldl foldStats Stats.default
      [⟨true, 10, some 1⟩, ⟨false, 5, some 2⟩, ⟨true, 7, some 3⟩]).successful_parses
      = 2 ∧
    (List.foldl foldStats Stats.default
      [⟨true, 10, some 1⟩, ⟨false, 5, some 2⟩, ⟨true, 7, some 3⟩]).total_parses
      = 3 := by
  refine ⟨parseLoop_map_ok track rs s he, ?_, ?_, rfl, rfl, rfl⟩
  · unfold parseInvocation
    rw [parseLoop_map_ok]
    cases hany : rs.any (fun r => !r.successful) <;> simp [hany]
  · rw [foldl_total_parses]
    simp [Stats.default]

/-- C8: with neither a path-list file nor specifiers, `collect_paths` fails
with the fixed error message about providing paths. -/
theorem collect_paths_no_input (fs : FS) :
    collect_paths fs none none = Except.error "Must provide one or more paths" :=
  rfl

/-- C9: the timeout read of the parse subcommand unwraps the `u64` parse, so a
string that is not a valid base-10 `u64` (such as "abc" or "-1") has no result
value (the `unwrap` panics, modelled as `none`), while an absent flag yields 0
and a valid number yields its value. -/
theorem timeout_unwrap_panics :
    readTimeout (some "abc") = none ∧
    readTimeout (some "-1") = none ∧
    readTimeout none = some 0 ∧
    readTimeout (some "500") = some 500 :=
  ⟨rfl, rfl, rfl, rfl⟩

/-- C10: in path-list-file mode there is no emptiness check: a file whose
contents trim to the empty string yields the empty path list without error. -/
theorem collect_paths_empty_paths_file (fs : FS) (pf : String)
    (ps : Option (List String)) (content : String)
    (h1 : fs.readFile pf = some content) (h2 : rustTrim content = "") :
    collect_paths fs (some pf) ps = Except.ok [] := by
  show (match fs.readFile pf with
    | none => Except.error ("Failed to read paths file " ++ pf)
    | some c => Except.ok (rustLines (rustTrim c))) = _
  rw [h1]
  dsimp only
  rw [h2]
  exact rfl

/-- Witness for C10: a whitespace-only path-list file resolves to the empty
list without error. -/
theorem collect_paths_empty_paths_file_witness :
    fsEmptyList.readFile "empty.txt" = some "  \n\t \n" ∧
    rustTrim "  \n\t \n" = "" ∧
    collect_paths fsEmptyList (some "empty.txt") none = Except.ok [] :=
  ⟨rfl, rfl,
    collect_paths_empty_paths_file fsEmptyList "empty.txt" none "  \n\t \n"
      rfl rfl⟩

end TreeSitterCli
